import Mathlib

/-!
Verification of the MangoTango minter (src/main.py): a shallow embedding of
the mint ledger state machine, the deterministic trait generator, the
metadata builder, the reveal operation and the royalty calculator, together
with proofs settling the specification claims.

Conventions of the embedding:
* Python `int` values (token ids, wei amounts, counters) are `Nat`; the
  32-bit words inside SHA-256 are `Nat` reduced with `% 2^32`.
* Python wall-clock time (`time.time()`) is passed explicitly as a `now : Nat`
  argument to each operation that reads the clock, read once per call.
* Python dictionaries keyed by token id are association lists with
  update-in-place-or-append insertion (this matches dict key uniqueness and
  iteration order); the two dictionaries only ever read through
  `.get(key, default)` (`_mint_count_per_wallet`, `_reveal_ready_at`) are
  total functions with the default baked in.
* Raising an exception is returning `Except.error` together with the
  unchanged state.
-/

/-! ## Python string primitives used by the source -/

/-- Python `s[a:b]` for `0 ≤ a ≤ b` on strings. -/
def pySlice (s : String) (a b : Nat) : String :=
  ⟨(s.data.drop a).take (b - a)⟩

/-- ASCII whitespace recognized by Python `str.strip()`. -/
def isPySpace (c : Char) : Bool :=
  c = ' ' || c = '\t' || c = '\n' || c = '\r' || c.toNat = 11 || c.toNat = 12

/-- Python `str.strip()` (ASCII whitespace). -/
def pyStrip (s : String) : String :=
  ⟨((s.data.dropWhile isPySpace).reverse.dropWhile isPySpace).reverse⟩

/-- Lower-case one ASCII character, as Python `str.lower()` does on ASCII. -/
def pyLowerChar (c : Char) : Char :=
  if 65 ≤ c.toNat && c.toNat ≤ 90 then Char.ofNat (c.toNat + 32) else c

/-- Python `str.lower()` (ASCII). -/
def pyLower (s : String) : String :=
  ⟨s.data.map pyLowerChar⟩

/-- The address normalization `address.strip().lower()` used throughout the minter. -/
def pyNorm (s : String) : String := pyLower (pyStrip s)

/-- Python `int(h, 16)` on a hex-digit string (the source only applies it to
digest slices, which are lower-case hex). -/
def hexDigitVal (c : Char) : Nat :=
  if 48 ≤ c.toNat && c.toNat ≤ 57 then c.toNat - 48
  else if 97 ≤ c.toNat && c.toNat ≤ 102 then c.toNat - 87
  else if 65 ≤ c.toNat && c.toNat ≤ 70 then c.toNat - 55
  else 0

def hexToNat (s : String) : Nat :=
  s.data.foldl (fun acc c => acc * 16 + hexDigitVal c) 0

/-- Python `needle in hay` substring test. -/
def strContainsSub (hay needle : String) : Bool :=
  hay.data.tails.any (fun t => needle.data.isPrefixOf t)

/-! ## SHA-256 (as `hashlib.sha256(payload.encode()).hexdigest()`) -/

/-- Truncate to a 32-bit word. -/
def w32 (n : Nat) : Nat := n % 4294967296

/-- 32-bit rotate right. -/
def rotr32 (n x : Nat) : Nat := w32 ((x >>> n) ||| (x <<< (32 - n)))

def bsig0 (x : Nat) : Nat := rotr32 2 x ^^^ rotr32 13 x ^^^ rotr32 22 x
def bsig1 (x : Nat) : Nat := rotr32 6 x ^^^ rotr32 11 x ^^^ rotr32 25 x
def ssig0 (x : Nat) : Nat := rotr32 7 x ^^^ rotr32 18 x ^^^ (x >>> 3)
def ssig1 (x : Nat) : Nat := rotr32 17 x ^^^ rotr32 19 x ^^^ (x >>> 10)
def chFn (x y z : Nat) : Nat := (x &&& y) ^^^ ((x ^^^ 4294967295) &&& z)
def majFn (x y z : Nat) : Nat := (x &&& y) ^^^ (x &&& z) ^^^ (y &&& z)

def sha256K : List Nat := [
  1116352408, 1899447441, 3049323471, 3921009573, 961987163,
  1508970993, 2453635748, 2870763221, 3624381080, 310598401,
  607225278, 1426881987, 1925078388, 2162078206, 2614888103,
  3248222580, 3835390401, 4022224774, 264347078, 604807628,
  770255983, 1249150122, 1555081692, 1996064986, 2554220882,
  2821834349, 2952996808, 3210313671, 3336571891, 3584528711,
  113926993, 338241895, 666307205, 773529912, 1294757372,
  1396182291, 1695183700, 1986661051, 2177026350, 2456956037,
  2730485921, 2820302411, 3259730800, 3345764771, 3516065817,
  3600352804, 4094571909, 275423344, 430227734, 506948616,
  659060556, 883997877, 958139571, 1322822218, 1537002063,
  1747873779, 1955562222, 2024104815, 2227730452, 2361852424,
  2428436474, 2756734187, 3204031479, 3329325298]

def sha256H0 : List Nat := [
  1779033703, 3144134277, 1013904242, 2773480762, 1359893119,
  2600822924, 528734635, 1541459225]

/-- Big-endian byte rendering of a number on `n` bytes. -/
def beBytes (n v : Nat) : List Nat :=
  (List.range n).map (fun i => (v >>> (8 * (n - 1 - i))) % 256)

/-- SHA-256 message padding on bytes. -/
def sha256Pad (msg : List Nat) : List Nat :=
  msg ++ [128] ++ List.replicate ((119 - msg.length % 64) % 64) 0 ++ beBytes 8 (8 * msg.length)

/-- Group bytes into big-endian 32-bit words. -/
def bytesToWords : List Nat → List Nat
  | b0 :: b1 :: b2 :: b3 :: rest =>
      (b0 * 16777216 + b1 * 65536 + b2 * 256 + b3) :: bytesToWords rest
  | _ => []

/-- Split a word list into 16-word blocks. -/
def chunk16 (l : List Nat) : List (List Nat) :=
  if h : l = [] then [] else l.take 16 :: chunk16 (l.drop 16)
termination_by l.length
decreasing_by
  simp only [List.length_drop]
  have : l.length ≠ 0 := fun h0 => h (List.length_eq_zero.mp h0)
  omega

/-- Extend the 16-word schedule; called with 48 steps of fuel. -/
def extendSchedule : Nat → List Nat → List Nat
  | 0, w => w
  | fuel + 1, w =>
      extendSchedule fuel (w ++ [w32 (ssig1 (w.getD (w.length - 2) 0) +
        w.getD (w.length - 7) 0 + ssig0 (w.getD (w.length - 15) 0) +
        w.getD (w.length - 16) 0)])

/-- One SHA-256 round on the eight working variables. -/
def sha256Round (st : List Nat) (k w : Nat) : List Nat :=
  match st with
  | [a, b, c, d, e, f, g, h] =>
      let t1 := w32 (h + bsig1 e + chFn e f g + k + w)
      let t2 := w32 (bsig0 a + majFn a b c)
      [w32 (t1 + t2), a, b, c, w32 (d + t1), e, f, g]
  | other => other

/-- Compress one 16-word block into the running hash. -/
def sha256Compress (h : List Nat) (block : List Nat) : List Nat :=
  let w := extendSchedule 48 block
  let st := (sha256K.zip w).foldl (fun st kw => sha256Round st kw.1 kw.2) h
  (h.zip st).map (fun p => w32 (p.1 + p.2))

/-- SHA-256 of a byte list, as eight 32-bit words. -/
def sha256Words (msg : List Nat) : List Nat :=
  (chunk16 (bytesToWords (sha256Pad msg))).foldl sha256Compress sha256H0

def hexDigitChar (n : Nat) : Char :=
  if n < 10 then Char.ofNat (48 + n) else Char.ofNat (87 + n)

/-- Lower-case hex rendering of one 32-bit word (8 digits). -/
def wordToHex (wv : Nat) : List Char :=
  (List.range 8).map (fun i => hexDigitChar ((wv >>> (28 - 4 * i)) % 16))

/-- UTF-8 encoding of one character (Python `str.encode()`). -/
def charUtf8 (c : Char) : List Nat :=
  let n := c.toNat
  if n < 128 then [n]
  else if n < 2048 then [192 + n / 64, 128 + n % 64]
  else if n < 65536 then [224 + n / 4096, 128 + (n / 64) % 64, 128 + n % 64]
  else [240 + n / 262144, 128 + (n / 4096) % 64, 128 + (n / 64) % 64, 128 + n % 64]

def utf8Bytes (s : String) : List Nat := (s.data.map charUtf8).flatten

/-- Python `hashlib.sha256(s.encode()).hexdigest()`. -/
def sha256Hex (s : String) : String :=
  ⟨((sha256Words (utf8Bytes s)).map wordToHex).flatten⟩

/-! ## Constants of src/main.py -/

def MANGO_TANGO_COLLECTION_SEED : String :=
  "0x2e4f6a8c0e2b4d6f8a0c2e4b6d8f0a2c4e6b8d0e2f4a6c8b0d2e4f6a8c0e2b4d6f8"
def MANGO_TANGO_MAX_SUPPLY : Nat := 9999
def MANGO_TANGO_MINT_PRICE_WEI : Nat := 50000000000000000
def MANGO_TANGO_ROYALTY_BPS : Nat := 750
def MANGO_TANGO_BPS_DENOM : Nat := 10000
def MANGO_TANGO_ALLOWLIST_PHASE_MAX_PER_WALLET : Nat := 2
def MANGO_TANGO_PUBLIC_PHASE_MAX_PER_WALLET : Nat := 5
def MANGO_TANGO_REVEAL_DELAY_SEC : Nat := 300
def MANGO_TANGO_COLLECTION_URI : String := "ipfs://QmMangoTangoCollectionBaseUriPlaceholder/"
def MANGO_TANGO_NAME : String := "MangoTango"

inductive MangoTangoPhase where
  | CLOSED
  | ALLOWLIST
  | PUBLIC
  | SOLD_OUT
deriving DecidableEq, Repr

/-- The domain events appended to `_event_log`, one constructor per `_emit`
call site, carrying the fields of the payload dictionary. -/
inductive MangoTangoEvent where
  | mintRequested (tokenId : Nat) (toAddr : String) (valueWei : Nat)
  | tokenRevealed (tokenId : Nat)
  | allowlistUpdatedCount (count : Nat)
  | allowlistUpdatedRemoved (removed : String)
  | phaseAdvanced (phase : String)
deriving DecidableEq, Repr

/-- The exception classes, one constructor per class, with the constructor
arguments of the Python exception. -/
inductive MangoTangoError where
  | mintCapReached (current cap : Nat)
  | notAllowed (address : String)
  | invalidTokenId (tokenId : Nat)
  | phaseClosed (phase : MangoTangoPhase)
  | walletLimit (address : String) (count limit : Nat)
  | insufficientValue (sent required : Nat)
  | revealNotReady (tokenId : Nat)
deriving DecidableEq, Repr

/-! ## Trait tables -/

def MANGO_TANGO_BACKGROUNDS : List String := [
  "Tropical Sunset", "Coral Reef", "Golden Hour", "Mango Grove", "Tango Night",
  "Citrus Blush", "Amber Glow", "Saffron Mist", "Peach Haze", "Palm Shadow",
  "Jungle Canopy", "Beach Dawn", "Harvest Moon", "Spice Market", "Rum Barrel"]

def MANGO_TANGO_SKIN_TONES : List String := [
  "Sun Kissed", "Golden Ripe", "Amber", "Honey", "Caramel",
  "Blush", "Coral", "Peach", "Cream", "Light Amber"]

def MANGO_TANGO_EXPRESSIONS : List String := [
  "Cheerful", "Wink", "Smirk", "Joy", "Serene",
  "Playful", "Mysterious", "Bold", "Calm", "Zesty"]

def MANGO_TANGO_ACCESSORIES : List String := [
  "None", "Leaf Crown", "Sunglasses", "Bandana", "Straw Hat",
  "Flower", "Scarf", "Bow Tie", "Earring", "Necklace",
  "Headband", "Cap", "Beret", "Pin", "Chain"]

def MANGO_TANGO_RARITY_TIERS : List String := [
  "Common", "Uncommon", "Rare", "Epic", "Legendary"]

def MANGO_TANGO_BACKGROUND_HEX : List String := [
  "#FF6B35", "#F7C35F", "#2D5A27", "#8B4513", "#FF8C00",
  "#CD853F", "#D2691E", "#DEB887", "#F4A460", "#BC8F8F"]

def MANGO_TANGO_SPECIAL_TRAITS : List String := [
  "Golden Seed", "Tango Dancer", "Mango King", "Tropical Royalty",
  "Sun Blessed", "Harvest Lord", "Citrus Spirit", "Island Soul"]

/-! ## Trait generator and metadata builder -/

/-- Source `_hash_seed_for_token`: SHA-256 hex digest of the concatenation of seed, token id and nonce joined by dashes. -/
def hashSeedForToken (collection_seed : String) (token_id : Nat) (nonce : Nat := 0) : String :=
  sha256Hex (collection_seed ++ "-" ++ Nat.repr token_id ++ "-" ++ Nat.repr nonce)

/-- Source `_pick_trait_from_hash`: `traits[int(h[:8], 16) % len(traits)]`. -/
def pickTraitFromHash (h : String) (traits : List String) : String :=
  traits.getD (hexToNat (pySlice h 0 8) % traits.length) ""

/-- Source `_pick_hex_from_hash`: `hexes[int(h[8:16], 16) % len(hexes)]`. -/
def pickHexFromHash (h : String) (hexes : List String) : String :=
  hexes.getD (hexToNat (pySlice h 8 16) % hexes.length) ""

/-- Source `generate_metadata_attributes` (attributes as `(trait_type, value)` pairs).
The `revealed` argument is accepted, as in the source, and not used. -/
def generateMetadataAttributes (token_id : Nat) (revealed : Bool) : List (String × String) :=
  let seed := hashSeedForToken MANGO_TANGO_COLLECTION_SEED token_id
  [("Background", pickTraitFromHash (pySlice seed 0 16) MANGO_TANGO_BACKGROUNDS),
   ("Skin", pickTraitFromHash (pySlice seed 2 18) MANGO_TANGO_SKIN_TONES),
   ("Expression", pickTraitFromHash (pySlice seed 4 20) MANGO_TANGO_EXPRESSIONS),
   ("Accessory", pickTraitFromHash (pySlice seed 6 22) MANGO_TANGO_ACCESSORIES),
   ("Rarity", pickTraitFromHash (pySlice seed 10 26) MANGO_TANGO_RARITY_TIERS),
   ("Background Color", pickHexFromHash (pySlice seed 12 28) MANGO_TANGO_BACKGROUND_HEX)]
  ++ (if hexToNat (pySlice seed 14 16) % 5 = 0 then
        [("Special", pickTraitFromHash (pySlice seed 16 32) MANGO_TANGO_SPECIAL_TRAITS)]
      else [])

structure TokenMetadata where
  token_id : Nat
  name : String
  description : String
  image_uri : String
  attributes : List (String × String)
  revealed : Bool
  revealed_at : Option Nat := none
deriving DecidableEq, Repr

/-- Source `build_token_metadata`; `now` is the value of `time.time()` during the call. -/
def buildTokenMetadata (token_id : Nat) (revealed : Bool) (now : Nat) : TokenMetadata :=
  { token_id := token_id
    name := MANGO_TANGO_NAME ++ " #" ++ Nat.repr token_id
    description := "A unique MangoTango collectible. Token ID " ++ Nat.repr token_id ++
      ". Part of the " ++ MANGO_TANGO_NAME ++ " collection."
    image_uri := if revealed then MANGO_TANGO_COLLECTION_URI ++ Nat.repr token_id ++ ".png"
                 else MANGO_TANGO_COLLECTION_URI ++ "unrevealed.png"
    attributes := generateMetadataAttributes token_id revealed
    revealed := revealed
    revealed_at := if revealed then some now else none }

/-! ## Association lists modelling the Python dictionaries -/

/-- Dictionary lookup `d.get(k)` / `d[k]`. -/
def alookup {β : Type} : List (Nat × β) → Nat → Option β
  | [], _ => none
  | (k, v) :: rest, key => if key = k then some v else alookup rest key

/-- Dictionary update `d[k] = v`: replace in place, else append (dict order). -/
def ainsert {β : Type} : List (Nat × β) → Nat → β → List (Nat × β)
  | [], k, v => [(k, v)]
  | (k1, v1) :: rest, k, v =>
      if k = k1 then (k, v) :: rest else (k1, v1) :: ainsert rest k v

/-- Dictionary membership `k in d`. -/
def acontains {β : Type} (l : List (Nat × β)) (k : Nat) : Bool :=
  (alookup l k).isSome

/-! ## The minter state -/

structure MinterState where
  nextTokenId : Nat
  totalMinted : Nat
  allowlist : List String
  mintCountPerWallet : String → Nat
  phase : MangoTangoPhase
  metadataStore : List (Nat × TokenMetadata)
  ownerOf : List (Nat × String)
  revealReadyAt : Nat → Nat
  eventLog : List MangoTangoEvent

/-- Source `MangoTangoMinter.__init__`. -/
def initMinter : MinterState :=
  { nextTokenId := 1
    totalMinted := 0
    allowlist := []
    mintCountPerWallet := fun _ => 0
    phase := .ALLOWLIST
    metadataStore := []
    ownerOf := []
    revealReadyAt := fun _ => 0
    eventLog := [] }

/-- Source `get_mint_price_wei` (every phase returns the same constant). -/
def getMintPriceWei (s : MinterState) : Nat :=
  match s.phase with
  | .ALLOWLIST => MANGO_TANGO_MINT_PRICE_WEI
  | .PUBLIC => MANGO_TANGO_MINT_PRICE_WEI
  | _ => MANGO_TANGO_MINT_PRICE_WEI

/-- Source `get_max_per_wallet`. -/
def getMaxPerWallet (s : MinterState) : Nat :=
  match s.phase with
  | .ALLOWLIST => MANGO_TANGO_ALLOWLIST_PHASE_MAX_PER_WALLET
  | .PUBLIC => MANGO_TANGO_PUBLIC_PHASE_MAX_PER_WALLET
  | _ => 0

/-- Python `set.add` (membership-preserving, no duplicates). -/
def setAdd (l : List String) (a : String) : List String :=
  if a ∈ l then l else l ++ [a]

/-- Source `add_to_allowlist`. -/
def addToAllowlist (s : MinterState) (addresses : List String) : MinterState :=
  { s with allowlist := addresses.foldl (fun al a => setAdd al (pyNorm a)) s.allowlist
           eventLog := s.eventLog ++ [.allowlistUpdatedCount addresses.length] }

/-- Source `remove_from_allowlist` (`set.discard`). -/
def removeFromAllowlist (s : MinterState) (address : String) : MinterState :=
  { s with allowlist := s.allowlist.erase (pyNorm address)
           eventLog := s.eventLog ++ [.allowlistUpdatedRemoved address] }

/-- Source `is_on_allowlist`. -/
def isOnAllowlist (s : MinterState) (address : String) : Bool :=
  s.allowlist.contains (pyNorm address)

/-- Source `can_mint`: pure validation, first failing check wins. -/
def canMint (s : MinterState) (address : String) (quantity value_wei : Nat) :
    Bool × Option String :=
  if s.phase = .CLOSED then (false, some "MangoTango: minting closed")
  else if s.phase = .SOLD_OUT then (false, some "MangoTango: sold out")
  else if s.totalMinted + quantity > MANGO_TANGO_MAX_SUPPLY then
    (false, some "MangoTango: would exceed max supply")
  else if value_wei < getMintPriceWei s * quantity then
    (false, some "MangoTango: insufficient value")
  else if s.phase = .ALLOWLIST && !isOnAllowlist s address then
    (false, some "MangoTango: not on allowlist")
  else if s.mintCountPerWallet (pyNorm address) + quantity > getMaxPerWallet s then
    (false, some "MangoTango: wallet limit exceeded")
  else (true, none)

/-- The allocation loop of `mint` (`for _ in range(quantity)` with the supply
break), returning the minted ids in order and the state after the loop. -/
def mintLoop (toAddr : String) (now : Nat) : Nat → MinterState → List Nat × MinterState
  | 0, s => ([], s)
  | q + 1, s =>
      if s.totalMinted ≥ MANGO_TANGO_MAX_SUPPLY then ([], s)
      else
        let tid := s.nextTokenId
        let s1 : MinterState :=
          { s with nextTokenId := tid + 1
                   totalMinted := s.totalMinted + 1
                   ownerOf := ainsert s.ownerOf tid toAddr
                   revealReadyAt := fun k =>
                     if k = tid then now + MANGO_TANGO_REVEAL_DELAY_SEC else s.revealReadyAt k
                   metadataStore := ainsert s.metadataStore tid (buildTokenMetadata tid false now)
                   eventLog := s.eventLog ++ [.mintRequested tid toAddr (getMintPriceWei s)] }
        let rest := mintLoop toAddr now q s1
        (tid :: rest.1, rest.2)

/-- The error raised when the `can_mint` re-validation inside `mint` fails:
`raise MangoTangoMintCapReachedError(...) if "exceed" in (err or "") else
MangoTangoWalletLimitError(to_address, ...get(to_address.lower(), 0), ...)`. -/
def mintDispatchError (s : MinterState) (to_address : String) (err : Option String) :
    MangoTangoError :=
  if strContainsSub (err.getD "") "exceed" then
    .mintCapReached s.totalMinted MANGO_TANGO_MAX_SUPPLY
  else
    .walletLimit to_address (s.mintCountPerWallet (pyLower to_address)) (getMaxPerWallet s)

/-- The state produced by the allocation part of `mint` (loop, wallet-counter
update, automatic `SOLD_OUT` transition), once all validation has passed. -/
def mintSuccessState (s : MinterState) (to_address : String) (quantity now : Nat) :
    MinterState :=
  let idsState := mintLoop to_address now quantity s
  let s2 := idsState.2
  let s3 : MinterState :=
    { s2 with mintCountPerWallet := fun k =>
        if k = pyNorm to_address then s2.mintCountPerWallet k + idsState.1.length
        else s2.mintCountPerWallet k }
  if s3.totalMinted ≥ MANGO_TANGO_MAX_SUPPLY then
    { s3 with phase := .SOLD_OUT, eventLog := s3.eventLog ++ [.phaseAdvanced "SOLD_OUT"] }
  else s3

/-- Source `mint`: raising an exception is returning `Except.error` with the state
unchanged.  The error dispatch on the `can_mint` failure, and the re-checks
after it, mirror the source line by line. -/
def mint (s : MinterState) (to_address : String) (quantity value_wei now : Nat) :
    Except MangoTangoError (List Nat) × MinterState :=
  let okErr := canMint s to_address quantity value_wei
  if okErr.1 = false then
    (.error (mintDispatchError s to_address okErr.2), s)
  else
    let required := getMintPriceWei s * quantity
    if value_wei < required then (.error (.insufficientValue value_wei required), s)
    else if s.phase = .ALLOWLIST && !isOnAllowlist s to_address then
      (.error (.notAllowed to_address), s)
    else
      let key := pyNorm to_address
      let current := s.mintCountPerWallet key
      let limit := getMaxPerWallet s
      if current + quantity > limit then (.error (.walletLimit to_address current limit), s)
      else (.ok (mintLoop to_address now quantity s).1, mintSuccessState s to_address quantity now)

/-- Source `owner_of`. -/
def ownerOfFn (s : MinterState) (token_id : Nat) : Except MangoTangoError String :=
  match alookup s.ownerOf token_id with
  | none => .error (.invalidTokenId token_id)
  | some o => .ok o

/-- Source `get_metadata`. -/
def getMetadata (s : MinterState) (token_id : Nat) : Except MangoTangoError TokenMetadata :=
  match alookup s.metadataStore token_id with
  | none => .error (.invalidTokenId token_id)
  | some m => .ok m

/-- Source `reveal`. -/
def reveal (s : MinterState) (token_id now : Nat) :
    Except MangoTangoError TokenMetadata × MinterState :=
  if ¬ acontains s.metadataStore token_id then (.error (.invalidTokenId token_id), s)
  else if now < s.revealReadyAt token_id then (.error (.revealNotReady token_id), s)
  else
    let meta := buildTokenMetadata token_id true now
    (.ok meta,
     { s with metadataStore := ainsert s.metadataStore token_id meta
              eventLog := s.eventLog ++ [.tokenRevealed token_id] })

/-- Source `balance_of`: linear scan with normalized comparison. -/
def balanceOf (s : MinterState) (address : String) : Nat :=
  s.ownerOf.countP (fun kv => pyNorm kv.2 == pyNorm address)

/-- Source `tokens_of_owner`. -/
def tokensOfOwner (s : MinterState) (address : String) : List Nat :=
  (s.ownerOf.filter (fun kv => pyNorm kv.2 == pyNorm address)).map (fun kv => kv.1)

/-- Source `advance_to_public` (unconditional). -/
def advanceToPublic (s : MinterState) : MinterState :=
  { s with phase := .PUBLIC, eventLog := s.eventLog ++ [.phaseAdvanced "PUBLIC"] }

/-- Source `get_total_supply`. -/
def getTotalSupply (s : MinterState) : Nat := s.totalMinted

/-- Source `compute_royalty_amount`. -/
def computeRoyaltyAmount (sale_price_wei bps : Nat) : Nat :=
  sale_price_wei * bps / MANGO_TANGO_BPS_DENOM

/-! ## Public operations and reachability -/

/-- One state-mutating public call on the ledger, with its arguments
(`now` is the wall clock observed by the call). -/
inductive MinterOp where
  | mintOp (toAddr : String) (quantity value_wei now : Nat)
  | revealOp (token_id now : Nat)
  | addAllowlistOp (addresses : List String)
  | removeAllowlistOp (address : String)
  | advanceOp

/-- Apply one public operation; a raised exception leaves the state unchanged. -/
def applyOp (s : MinterState) : MinterOp → MinterState
  | .mintOp toAddr q v now => (mint s toAddr q v now).2
  | .revealOp tid now => (reveal s tid now).2
  | .addAllowlistOp addrs => addToAllowlist s addrs
  | .removeAllowlistOp a => removeFromAllowlist s a
  | .advanceOp => advanceToPublic s

/-- States reachable from the freshly initialized ledger by public operations. -/
inductive Reachable : MinterState → Prop
  | init : Reachable initMinter
  | step {s : MinterState} (op : MinterOp) : Reachable s → Reachable (applyOp s op)

/-- Recognizer for the explicit phase-advance operation. -/
def isAdvanceOp : MinterOp → Bool
  | .advanceOp => true
  | _ => false

/-- A state whose phase is `SOLD_OUT` (otherwise fresh), used to exhibit that
`advance_to_public` leaves `SOLD_OUT`. -/
def soldOutPhaseState : MinterState := { initMinter with phase := .SOLD_OUT }

/-! ## Concrete scenario states -/

/-- The fresh ledger with `0xabc` added to the allowlist. -/
def scenarioAllowlisted : MinterState := addToAllowlist initMinter ["0xabc"]

/-- The ledger after `0xabc` then successfully mints one token at the price
(clock at 0). -/
def scenarioMinted : MinterState :=
  (mint scenarioAllowlisted "0xabc" 1 MANGO_TANGO_MINT_PRICE_WEI 0).2

/-- The fresh ledger with the mixed-case address `0xABC` allowlisted. -/
def scenarioUpperAllowlisted : MinterState := addToAllowlist initMinter ["0xABC"]

/-- The ledger after `0xABC` successfully mints one token. -/
def scenarioUpperMinted : MinterState :=
  (mint scenarioUpperAllowlisted "0xABC" 1 MANGO_TANGO_MINT_PRICE_WEI 0).2

/-! ## A reachable sold-out ledger

`MAX_SUPPLY = 9999 = 5 * 1999 + 4`: after advancing to the public phase,
1999 distinct wallets mint 5 tokens each and one final wallet mints 4,
which exhausts the supply.  `advance_to_public` applied to the resulting
`SOLD_OUT` state then moves the phase back to `PUBLIC` while
`total_minted` stays at `MAX_SUPPLY`. -/

/-- The `i`-th wallet address: `i + 1` copies of the character `w`
(pairwise distinct, already stripped and lower-case). -/
def cexAddr (i : Nat) : String := ⟨List.replicate (i + 1) 'w'⟩

/-- After `advance_to_public`, wallet `0`, …, wallet `n - 1` each mint 5
tokens at the exact price. -/
def cexChain : Nat → MinterState
  | 0 => applyOp initMinter .advanceOp
  | n + 1 => applyOp (cexChain n)
      (.mintOp (cexAddr n) 5 (MANGO_TANGO_MINT_PRICE_WEI * 5) 0)

/-- The sold-out ledger: wallet `1999` mints the last 4 tokens. -/
def cexSoldOut : MinterState :=
  applyOp (cexChain 1999) (.mintOp (cexAddr 1999) 4 (MANGO_TANGO_MINT_PRICE_WEI * 4) 0)

/-- Result of `advance_to_public` applied to the sold-out ledger. -/
def cexFinal : MinterState := applyOp cexSoldOut .advanceOp

/-! ## Association-list (dictionary) lemmas -/

theorem alookup_ainsert_self {β : Type} (l : List (Nat × β)) (k : Nat) (v : β) :
    alookup (ainsert l k v) k = some v := by
  induction l with
  | nil => simp [ainsert, alookup]
  | cons kv rest ih =>
      by_cases h : k = kv.1
      · simp [ainsert, h, alookup]
      · simp only [ainsert]
        rw [if_neg h]
        simp [alookup, h, ih]

theorem alookup_ainsert_ne {β : Type} (l : List (Nat × β)) (k t : Nat) (v : β)
    (h : t ≠ k) : alookup (ainsert l k v) t = alookup l t := by
  induction l with
  | nil => simp [ainsert, alookup, h]
  | cons kv rest ih =>
      by_cases hk : k = kv.1
      · subst hk
        simp [ainsert, alookup, h]
      · simp only [ainsert]
        rw [if_neg hk]
        by_cases ht : t = kv.1
        · simp [alookup, ht]
        · simp [alookup, ht, ih]

theorem length_ainsert_fresh {β : Type} (l : List (Nat × β)) (k : Nat) (v : β)
    (h : ∀ kv ∈ l, kv.1 ≠ k) : (ainsert l k v).length = l.length + 1 := by
  induction l with
  | nil => simp [ainsert]
  | cons kv rest ih =>
      have hne : k ≠ kv.1 := fun he => (h kv (by simp)) he.symm
      simp only [ainsert]
      rw [if_neg hne]
      simp only [List.length_cons]
      rw [ih (fun x hx => h x (by simp [hx]))]

theorem mem_ainsert {β : Type} (l : List (Nat × β)) (k : Nat) (v : β) :
    ∀ kv ∈ ainsert l k v, kv = (k, v) ∨ kv ∈ l := by
  induction l with
  | nil => simp [ainsert]
  | cons kv0 rest ih =>
      intro kv hkv
      simp only [ainsert] at hkv
      by_cases hk : k = kv0.1
      · rw [if_pos hk] at hkv
        rcases List.mem_cons.mp hkv with h | h
        · exact Or.inl h
        · exact Or.inr (List.mem_cons_of_mem _ h)
      · rw [if_neg hk] at hkv
        rcases List.mem_cons.mp hkv with h | h
        · exact Or.inr (by simp [h])
        · rcases ih kv h with h1 | h1
          · exact Or.inl h1
          · exact Or.inr (List.mem_cons_of_mem _ h1)

theorem acontains_ainsert_self {β : Type} (l : List (Nat × β)) (k : Nat) (v : β) :
    acontains (ainsert l k v) k = true := by
  simp [acontains, alookup_ainsert_self]

/-! ## Per-phase constants -/

theorem getMintPriceWei_const (s : MinterState) :
    getMintPriceWei s = MANGO_TANGO_MINT_PRICE_WEI := by
  unfold getMintPriceWei
  cases s.phase <;> rfl

theorem getMaxPerWallet_public (s : MinterState) (h : s.phase = .PUBLIC) :
    getMaxPerWallet s = MANGO_TANGO_PUBLIC_PHASE_MAX_PER_WALLET := by
  unfold getMaxPerWallet
  rw [h]

/-! ## `can_mint` characterization -/

theorem canMint_true_iff (s : MinterState) (a : String) (q v : Nat) :
    (canMint s a q v).1 = true ↔
      (s.phase = .ALLOWLIST ∨ s.phase = .PUBLIC) ∧
      s.totalMinted + q ≤ MANGO_TANGO_MAX_SUPPLY ∧
      getMintPriceWei s * q ≤ v ∧
      (s.phase = .ALLOWLIST → isOnAllowlist s a = true) ∧
      s.mintCountPerWallet (pyNorm a) + q ≤ getMaxPerWallet s := by
  unfold canMint
  rcases hp : s.phase <;>
    split_ifs with h1 h2 h3 h4 <;>
      simp_all <;> omega

theorem canMint_soldOut (s : MinterState) (a : String) (q v : Nat)
    (h : s.phase = .SOLD_OUT) : (canMint s a q v).1 = false := by
  unfold canMint
  rw [h]
  simp


/-! ## `mint` case analysis -/

theorem mint_err (s : MinterState) (a : String) (q v now : Nat)
    (h : (canMint s a q v).1 = false) :
    mint s a q v now = (.error (mintDispatchError s a (canMint s a q v).2), s) := by
  unfold mint
  rw [if_pos h]

theorem mint_ok (s : MinterState) (a : String) (q v now : Nat)
    (h : (canMint s a q v).1 = true) :
    mint s a q v now = (.ok (mintLoop a now q s).1, mintSuccessState s a q now) := by
  obtain ⟨hph, hsup, hval, hallow, hwallet⟩ := (canMint_true_iff s a q v).mp h
  have hba : (s.phase = MangoTangoPhase.ALLOWLIST && !isOnAllowlist s a) = false := by
    by_cases hA : s.phase = .ALLOWLIST
    · simp [hA, hallow hA]
    · simp [hA]
  unfold mint
  rw [if_neg (by simp [h])]
  rw [if_neg (by omega)]
  rw [if_neg (by simp [hba])]
  rw [if_neg (by omega)]

theorem mintSuccessState_fields (s : MinterState) (a : String) (q now : Nat) :
    (mintSuccessState s a q now).totalMinted = (mintLoop a now q s).2.totalMinted ∧
    (mintSuccessState s a q now).nextTokenId = (mintLoop a now q s).2.nextTokenId ∧
    (mintSuccessState s a q now).ownerOf = (mintLoop a now q s).2.ownerOf ∧
    (mintSuccessState s a q now).allowlist = (mintLoop a now q s).2.allowlist ∧
    ((mintSuccessState s a q now).phase =
      if MANGO_TANGO_MAX_SUPPLY ≤ (mintLoop a now q s).2.totalMinted then .SOLD_OUT
      else (mintLoop a now q s).2.phase) ∧
    (∀ k, (mintSuccessState s a q now).mintCountPerWallet k =
      if k = pyNorm a then
        (mintLoop a now q s).2.mintCountPerWallet k + (mintLoop a now q s).1.length
      else (mintLoop a now q s).2.mintCountPerWallet k) := by
  unfold mintSuccessState
  refine ⟨?_, ?_, ?_, ?_, ?_, ?_⟩ <;> (try intro k) <;> dsimp only <;> split <;> rfl

/-! ## The allocation loop -/

theorem mintLoop_spec (a : String) (now : Nat) :
    ∀ (q : Nat) (s : MinterState), s.totalMinted + q ≤ MANGO_TANGO_MAX_SUPPLY →
      (mintLoop a now q s).1 = List.range' s.nextTokenId q ∧
      (mintLoop a now q s).2.totalMinted = s.totalMinted + q ∧
      (mintLoop a now q s).2.nextTokenId = s.nextTokenId + q ∧
      (mintLoop a now q s).2.phase = s.phase ∧
      (mintLoop a now q s).2.mintCountPerWallet = s.mintCountPerWallet ∧
      (mintLoop a now q s).2.allowlist = s.allowlist ∧
      (∀ t ∈ List.range' s.nextTokenId q, alookup (mintLoop a now q s).2.ownerOf t = some a) ∧
      (∀ t, t < s.nextTokenId → alookup (mintLoop a now q s).2.ownerOf t = alookup s.ownerOf t)
  | 0, s, h => by
      simp [mintLoop]
  | q + 1, s, h => by
      rw [mintLoop]
      rw [if_neg (by unfold MANGO_TANGO_MAX_SUPPLY at *; omega)]
      dsimp only
      set s1 : MinterState :=
        { s with nextTokenId := s.nextTokenId + 1
                 totalMinted := s.totalMinted + 1
                 ownerOf := ainsert s.ownerOf s.nextTokenId a
                 revealReadyAt := fun k =>
                   if k = s.nextTokenId then now + MANGO_TANGO_REVEAL_DELAY_SEC
                   else s.revealReadyAt k
                 metadataStore :=
                   ainsert s.metadataStore s.nextTokenId
                     (buildTokenMetadata s.nextTokenId false now)
                 eventLog := s.eventLog ++ [.mintRequested s.nextTokenId a (getMintPriceWei s)] }
        with hs1
      have hb : s1.totalMinted + q ≤ MANGO_TANGO_MAX_SUPPLY := by
        rw [hs1]; dsimp only; omega
      obtain ⟨ih1, ih2, ih3, ih4, ih5, ih6, ih7, ih8⟩ := mintLoop_spec a now q s1 hb
      have hnext1 : s1.nextTokenId = s.nextTokenId + 1 := by rw [hs1]
      have htot1 : s1.totalMinted = s.totalMinted + 1 := by rw [hs1]
      refine ⟨?_, ?_, ?_, ?_, ?_, ?_, ?_, ?_⟩
      · rw [List.range'_succ]
        simp [ih1, hnext1]
      · rw [ih2, htot1]; omega
      · rw [ih3, hnext1]; omega
      · rw [ih4, hs1]
      · rw [ih5, hs1]
      · rw [ih6, hs1]
      · intro t ht
        rw [List.range'_succ] at ht
        rcases List.mem_cons.mp ht with h1 | h1
        · subst h1
          rw [ih8 s.nextTokenId (by omega), hs1]
          dsimp only
          exact alookup_ainsert_self _ _ _
        · rw [hnext1] at ih7
          exact ih7 t h1
      · intro t ht
        rw [ih8 t (by omega), hs1]
        dsimp only
        exact alookup_ainsert_ne _ _ _ _ (by omega)

theorem mintLoop_len (a : String) (now : Nat) :
    ∀ (q : Nat) (s : MinterState), (∀ kv ∈ s.ownerOf, kv.1 < s.nextTokenId) →
      (mintLoop a now q s).2.ownerOf.length = s.ownerOf.length + (mintLoop a now q s).1.length ∧
      (∀ kv ∈ (mintLoop a now q s).2.ownerOf, kv.1 < (mintLoop a now q s).2.nextTokenId) ∧
      (mintLoop a now q s).2.totalMinted = s.totalMinted + (mintLoop a now q s).1.length ∧
      (mintLoop a now q s).2.nextTokenId = s.nextTokenId + (mintLoop a now q s).1.length ∧
      ((mintLoop a now q s).1 = [] → (mintLoop a now q s).2 = s)
  | 0, s, h => ⟨rfl, h, rfl, rfl, fun _ => rfl⟩
  | q + 1, s, h => by
      rw [mintLoop]
      by_cases hmax : s.totalMinted ≥ MANGO_TANGO_MAX_SUPPLY
      · rw [if_pos hmax]
        exact ⟨rfl, h, rfl, rfl, fun _ => rfl⟩
      · rw [if_neg hmax]
        dsimp only
        set s1 : MinterState :=
          { s with nextTokenId := s.nextTokenId + 1
                   totalMinted := s.totalMinted + 1
                   ownerOf := ainsert s.ownerOf s.nextTokenId a
                   revealReadyAt := fun k =>
                     if k = s.nextTokenId then now + MANGO_TANGO_REVEAL_DELAY_SEC
                     else s.revealReadyAt k
                   metadataStore :=
                     ainsert s.metadataStore s.nextTokenId
                       (buildTokenMetadata s.nextTokenId false now)
                   eventLog := s.eventLog ++ [.mintRequested s.nextTokenId a (getMintPriceWei s)] }
          with hs1
        have hkeys : ∀ kv ∈ s1.ownerOf, kv.1 < s1.nextTokenId := by
          rw [hs1]
          dsimp only
          intro kv hkv
          rcases mem_ainsert _ _ _ kv hkv with h1 | h1
          · rw [h1]; omega
          · exact Nat.lt_succ_of_lt (h kv h1)
        have hlen1 : s1.ownerOf.length = s.ownerOf.length + 1 := by
          rw [hs1]
          dsimp only
          exact length_ainsert_fresh _ _ _ (fun kv hkv => Nat.ne_of_lt (h kv hkv))
        obtain ⟨ih1, ih2, ih3, ih4, ih5⟩ := mintLoop_len a now q s1 hkeys
        refine ⟨?_, ih2, ?_, ?_, ?_⟩
        · rw [ih1, hlen1]
          simp only [List.length_cons]
          omega
        · rw [ih3, hs1]
          simp only [List.length_cons]
          omega
        · rw [ih4, hs1]
          simp only [List.length_cons]
          omega
        · intro hids
          exact absurd hids (by simp)

/-! ## `reveal` field preservation -/

theorem reveal_fields (s : MinterState) (tid now : Nat) :
    (reveal s tid now).2.totalMinted = s.totalMinted ∧
    (reveal s tid now).2.nextTokenId = s.nextTokenId ∧
    (reveal s tid now).2.ownerOf = s.ownerOf ∧
    (reveal s tid now).2.phase = s.phase ∧
    (reveal s tid now).2.mintCountPerWallet = s.mintCountPerWallet ∧
    (reveal s tid now).2.allowlist = s.allowlist ∧
    (reveal s tid now).2.revealReadyAt = s.revealReadyAt := by
  unfold reveal
  split_ifs <;> simp

/-! ## The ledger invariant -/

/-- The inductive invariant of reachable ledger states. -/
def LedgerInv (s : MinterState) : Prop :=
  s.totalMinted = s.ownerOf.length ∧
  s.totalMinted ≤ MANGO_TANGO_MAX_SUPPLY ∧
  (∀ kv ∈ s.ownerOf, kv.1 < s.nextTokenId) ∧
  (s.phase = .SOLD_OUT → s.totalMinted = MANGO_TANGO_MAX_SUPPLY)

theorem ledgerInv_init : LedgerInv initMinter := by
  refine ⟨rfl, by simp [initMinter, MANGO_TANGO_MAX_SUPPLY], by simp [initMinter], ?_⟩
  intro h
  simp [initMinter] at h

theorem ledgerInv_step (s : MinterState) (op : MinterOp) (h : LedgerInv s) :
    LedgerInv (applyOp s op) := by
  obtain ⟨hlen, hmax, hkeys, hsold⟩ := h
  cases op with
  | mintOp a q v now =>
      show LedgerInv (mint s a q v now).2
      by_cases hc : (canMint s a q v).1 = true
      · rw [mint_ok s a q v now hc]
        obtain ⟨hph, hsup, hval, hallow, hwallet⟩ := (canMint_true_iff s a q v).mp hc
        obtain ⟨f1, f2, f3, f4, f5, f6⟩ := mintSuccessState_fields s a q now
        obtain ⟨l1, l2, l3, l4, l5⟩ := mintLoop_len a now q s hkeys
        obtain ⟨m1, m2, m3, m4, m5, m6, m7, m8⟩ := mintLoop_spec a now q s hsup
        have hidslen : (mintLoop a now q s).1.length = q := by
          rw [m1, List.length_range']
        refine ⟨?_, ?_, ?_, ?_⟩
        · rw [f1, f3, l1, l3]
          omega
        · rw [f1, m2]
          exact hsup
        · rw [f3, f2]
          exact l2
        · intro hphase
          rw [f1, m2]
          rw [f5] at hphase
          by_cases hcase : MANGO_TANGO_MAX_SUPPLY ≤ (mintLoop a now q s).2.totalMinted
          · rw [m2] at hcase
            omega
          · rw [if_neg hcase, m4] at hphase
            rcases hph with h1 | h1 <;> rw [h1] at hphase <;> exact absurd hphase (by simp)
      · have hc2 : (canMint s a q v).1 = false := by
          revert hc
          cases (canMint s a q v).1 <;> simp
        rw [mint_err s a q v now hc2]
        exact ⟨hlen, hmax, hkeys, hsold⟩
  | revealOp tid now =>
      show LedgerInv (reveal s tid now).2
      obtain ⟨r1, r2, r3, r4, r5, r6, r7⟩ := reveal_fields s tid now
      rw [LedgerInv, r1, r2, r3, r4]
      exact ⟨hlen, hmax, hkeys, hsold⟩
  | addAllowlistOp addrs =>
      exact ⟨hlen, hmax, hkeys, hsold⟩
  | removeAllowlistOp a =>
      exact ⟨hlen, hmax, hkeys, hsold⟩
  | advanceOp =>
      refine ⟨hlen, hmax, hkeys, ?_⟩
      intro hphase
      exact absurd hphase (by simp [applyOp, advanceToPublic])

theorem reachable_ledgerInv (s : MinterState) (h : Reachable s) : LedgerInv s := by
  induction h with
  | init => exact ledgerInv_init
  | step op _ ih => exact ledgerInv_step _ op ih

/-! ## Phase behaviour from `SOLD_OUT` -/

theorem mint_soldOut_unchanged (s : MinterState) (a : String) (q v now : Nat)
    (h : s.phase = .SOLD_OUT) : (mint s a q v now).2 = s := by
  rw [mint_err s a q v now (canMint_soldOut s a q v h)]

theorem applyOp_soldOut_phase (s : MinterState) (op : MinterOp)
    (h : s.phase = .SOLD_OUT) (hop : isAdvanceOp op = false) :
    (applyOp s op).phase = .SOLD_OUT := by
  cases op with
  | mintOp a q v now =>
      show (mint s a q v now).2.phase = .SOLD_OUT
      rw [mint_soldOut_unchanged s a q v now h]
      exact h
  | revealOp tid now =>
      show (reveal s tid now).2.phase = .SOLD_OUT
      rw [(reveal_fields s tid now).2.2.2.1]
      exact h
  | addAllowlistOp addrs => exact h
  | removeAllowlistOp a => exact h
  | advanceOp => simp [isAdvanceOp] at hop

/-! ## The sold-out chain -/

theorem pyLowerChar_w : pyLowerChar 'w' = 'w' := by decide

theorem isPySpace_w : isPySpace 'w' = false := by decide

theorem pyNorm_cexAddr (i : Nat) : pyNorm (cexAddr i) = cexAddr i := by
  unfold pyNorm cexAddr pyStrip pyLower
  simp only [List.replicate_succ, List.dropWhile_cons, isPySpace_w]
  simp only [Bool.false_eq_true, if_false, ← List.replicate_succ, List.reverse_replicate]
  simp only [List.replicate_succ, List.dropWhile_cons, isPySpace_w]
  simp only [Bool.false_eq_true, if_false, ← List.replicate_succ, List.reverse_replicate]
  simp [List.map_replicate, pyLowerChar_w]

theorem cexAddr_inj {i j : Nat} (h : cexAddr i = cexAddr j) : i = j := by
  have hd := congrArg (fun s => s.data.length) h
  simpa [cexAddr] using hd

theorem cexChain_inv : ∀ n, n ≤ 1999 →
    Reachable (cexChain n) ∧
    (cexChain n).totalMinted = 5 * n ∧
    (cexChain n).phase = .PUBLIC ∧
    (cexChain n).nextTokenId = 5 * n + 1 ∧
    (∀ m, n ≤ m → (cexChain n).mintCountPerWallet (cexAddr m) = 0)
  | 0, _ => by
      refine ⟨Reachable.step .advanceOp Reachable.init, rfl, rfl, rfl, ?_⟩
      intro m _
      rfl
  | n + 1, hn => by
      obtain ⟨ihr, ihtot, ihph, ihnext, ihw⟩ := cexChain_inv n (by omega)
      set s := cexChain n with hs
      have hprice : getMintPriceWei s * 5 = MANGO_TANGO_MINT_PRICE_WEI * 5 := by
        rw [getMintPriceWei_const]
      have hcan : (canMint s (cexAddr n) 5 (MANGO_TANGO_MINT_PRICE_WEI * 5)).1 = true := by
        rw [canMint_true_iff]
        refine ⟨Or.inr ihph, ?_, ?_, ?_, ?_⟩
        · rw [ihtot]
          unfold MANGO_TANGO_MAX_SUPPLY
          omega
        · rw [hprice]
        · intro hA
          rw [ihph] at hA
          exact absurd hA (by simp)
        · rw [pyNorm_cexAddr, ihw n (by omega), getMaxPerWallet_public s ihph]
          unfold MANGO_TANGO_PUBLIC_PHASE_MAX_PER_WALLET
          omega
      have hbound : s.totalMinted + 5 ≤ MANGO_TANGO_MAX_SUPPLY := by
        rw [ihtot]
        unfold MANGO_TANGO_MAX_SUPPLY
        omega
      obtain ⟨m1, m2, m3, m4, m5, m6, m7, m8⟩ := mintLoop_spec (cexAddr n) 0 5 s hbound
      obtain ⟨f1, f2, f3, f4, f5, f6⟩ := mintSuccessState_fields s (cexAddr n) 5 0
      have hch : cexChain (n + 1) =
          mintSuccessState s (cexAddr n) 5 0 := by
        show (mint s (cexAddr n) 5 (MANGO_TANGO_MINT_PRICE_WEI * 5) 0).2 = _
        rw [mint_ok s (cexAddr n) 5 (MANGO_TANGO_MINT_PRICE_WEI * 5) 0 hcan]
      have hnotfull : ¬ MANGO_TANGO_MAX_SUPPLY ≤ (mintLoop (cexAddr n) 0 5 s).2.totalMinted := by
        rw [m2, ihtot]
        unfold MANGO_TANGO_MAX_SUPPLY
        omega
      refine ⟨?_, ?_, ?_, ?_, ?_⟩
      · show Reachable (applyOp (cexChain n) _)
        exact Reachable.step _ ihr
      · rw [hch, f1, m2, ihtot]
        omega
      · rw [hch, f5, if_neg hnotfull, m4]
        exact ihph
      · rw [hch, f2, m3, ihnext]
        omega
      · intro m hm
        rw [hch, f6]
        rw [if_neg ?_]
        · rw [m5, ihw m (by omega)]
        · rw [pyNorm_cexAddr]
          intro he
          have := cexAddr_inj he
          omega

theorem applyOp_mintOp (s : MinterState) (a : String) (q v now : Nat) :
    applyOp s (.mintOp a q v now) = (mint s a q v now).2 := rfl

theorem cexSoldOut_facts :
    Reachable cexSoldOut ∧
    cexSoldOut.totalMinted = MANGO_TANGO_MAX_SUPPLY ∧
    cexSoldOut.phase = .SOLD_OUT := by
  obtain ⟨ihr, ihtot, ihph, ihnext, ihw⟩ := cexChain_inv 1999 (by omega)
  set s := cexChain 1999 with hs
  have hcan : (canMint s (cexAddr 1999) 4 (MANGO_TANGO_MINT_PRICE_WEI * 4)).1 = true := by
    rw [canMint_true_iff]
    refine ⟨Or.inr ihph, ?_, ?_, ?_, ?_⟩
    · rw [ihtot]
      unfold MANGO_TANGO_MAX_SUPPLY
      omega
    · rw [getMintPriceWei_const]
    · intro hA
      rw [ihph] at hA
      exact absurd hA (by simp)
    · rw [pyNorm_cexAddr, ihw 1999 (by omega), getMaxPerWallet_public s ihph]
      unfold MANGO_TANGO_PUBLIC_PHASE_MAX_PER_WALLET
      omega
  have hbound : s.totalMinted + 4 ≤ MANGO_TANGO_MAX_SUPPLY := by
    rw [ihtot]
    unfold MANGO_TANGO_MAX_SUPPLY
    omega
  obtain ⟨m1, m2, m3, m4, m5, m6, m7, m8⟩ := mintLoop_spec (cexAddr 1999) 0 4 s hbound
  obtain ⟨f1, f2, f3, f4, f5, f6⟩ := mintSuccessState_fields s (cexAddr 1999) 4 0
  have hch : cexSoldOut = mintSuccessState s (cexAddr 1999) 4 0 := by
    unfold cexSoldOut
    rw [applyOp_mintOp, ← hs, mint_ok s (cexAddr 1999) 4 (MANGO_TANGO_MINT_PRICE_WEI * 4) 0 hcan]
  have hfull : MANGO_TANGO_MAX_SUPPLY ≤ (mintLoop (cexAddr 1999) 0 4 s).2.totalMinted := by
    rw [m2, ihtot]
    unfold MANGO_TANGO_MAX_SUPPLY
    omega
  refine ⟨?_, ?_, ?_⟩
  · show Reachable (applyOp (cexChain 1999) _)
    exact Reachable.step _ ihr
  · rw [hch, f1, m2, ihtot]
    unfold MANGO_TANGO_MAX_SUPPLY
    omega
  · rw [hch, f5, if_pos hfull]

theorem applyOp_advanceOp (s : MinterState) :
    applyOp s .advanceOp = advanceToPublic s := rfl

theorem advanceToPublic_totalMinted (s : MinterState) :
    (advanceToPublic s).totalMinted = s.totalMinted := rfl

theorem advanceToPublic_phase (s : MinterState) :
    (advanceToPublic s).phase = .PUBLIC := rfl

theorem cexFinal_facts :
    Reachable cexFinal ∧
    cexFinal.totalMinted = MANGO_TANGO_MAX_SUPPLY ∧
    cexFinal.phase = .PUBLIC := by
  obtain ⟨hr, htot, hph⟩ := cexSoldOut_facts
  have hr2 : Reachable cexFinal := Reachable.step .advanceOp hr
  refine ⟨hr2, ?_, ?_⟩
  · unfold cexFinal
    rw [applyOp_advanceOp, advanceToPublic_totalMinted]
    exact htot
  · unfold cexFinal
    rw [applyOp_advanceOp, advanceToPublic_phase]

/-! ## Digest slice composition -/

theorem pySlice_first_eight (s : String) (a b : Nat) (h : a + 8 ≤ b) :
    pySlice (pySlice s a b) 0 8 = pySlice s a (a + 8) := by
  unfold pySlice
  simp only [List.drop_zero, List.take_take]
  congr 1
  have h1 : min (8 - 0) (b - a) = 8 := by omega
  have h2 : a + 8 - a = 8 := by omega
  rw [h1, h2]

theorem pySlice_second_eight (s : String) (a b : Nat) (h : a + 16 ≤ b) :
    pySlice (pySlice s a b) 8 16 = pySlice s (a + 8) (a + 16) := by
  unfold pySlice
  congr 1
  rw [List.drop_take]
  rw [List.drop_drop]
  have h1 : b - a - 8 = b - (a + 8) := by omega
  have h2 : (16 : Nat) - 8 = 8 := by omega
  have h3 : a + 16 - (a + 8) = 8 := by omega
  rw [h2, h3, List.take_take, h1]
  congr 1
  omega

theorem pickTrait_slice (s : String) (a b : Nat) (table : List String) (h : a + 8 ≤ b) :
    pickTraitFromHash (pySlice s a b) table =
      table.getD (hexToNat (pySlice s a (a + 8)) % table.length) "" := by
  unfold pickTraitFromHash
  rw [pySlice_first_eight s a b h]

theorem pickHex_slice (s : String) (a b : Nat) (table : List String) (h : a + 16 ≤ b) :
    pickHexFromHash (pySlice s a b) table =
      table.getD (hexToNat (pySlice s (a + 8) (a + 16)) % table.length) "" := by
  unfold pickHexFromHash
  rw [pySlice_second_eight s a b h]

/-! ## Further helper lemmas -/

theorem reveal_ok (s : MinterState) (tid now : Nat)
    (hmem : acontains s.metadataStore tid = true) (hr : s.revealReadyAt tid ≤ now) :
    reveal s tid now = (.ok (buildTokenMetadata tid true now),
      { s with metadataStore := ainsert s.metadataStore tid (buildTokenMetadata tid true now)
               eventLog := s.eventLog ++ [.tokenRevealed tid] }) := by
  unfold reveal
  rw [if_neg (by simp [hmem]), if_neg (by omega)]

theorem mint_ok_inv (s : MinterState) (a : String) (q v now : Nat) (ids : List Nat)
    (h : (mint s a q v now).1 = .ok ids) :
    (canMint s a q v).1 = true ∧ ids = (mintLoop a now q s).1 ∧
    (mint s a q v now).2 = mintSuccessState s a q now := by
  by_cases hc : (canMint s a q v).1 = true
  · rw [mint_ok s a q v now hc] at h ⊢
    simp at h
    exact ⟨hc, h.symm, rfl⟩
  · have hc2 : (canMint s a q v).1 = false := by
      revert hc
      cases (canMint s a q v).1 <;> simp
    rw [mint_err s a q v now hc2] at h
    exact absurd h (by simp)

theorem reachable_scenarioMinted : Reachable scenarioMinted :=
  Reachable.step (.mintOp "0xabc" 1 MANGO_TANGO_MINT_PRICE_WEI 0)
    (Reachable.step (.addAllowlistOp ["0xabc"]) Reachable.init)

/-! ## Claim theorems -/

/-- C1: for every ledger state and every call `mint(to, quantity, value)`,
`mint` raises an error if and only if `can_mint(to, quantity, value)` on the
same state returns `allowed = false`, and when `mint` raises, the ledger
state is completely unchanged. -/
theorem mint_raises_iff_canMint_rejects (s : MinterState) (a : String) (q v now : Nat) :
    ((∃ e, (mint s a q v now).1 = .error e) ↔ (canMint s a q v).1 = false) ∧
    ((∃ e, (mint s a q v now).1 = .error e) → (mint s a q v now).2 = s) := by
  by_cases hc : (canMint s a q v).1 = true
  · rw [mint_ok s a q v now hc]
    refine ⟨⟨?_, ?_⟩, ?_⟩
    · rintro ⟨e, he⟩
      exact absurd he (by simp)
    · intro hf
      rw [hc] at hf
      exact absurd hf (by simp)
    · rintro ⟨e, he⟩
      exact absurd he (by simp)
  · have hc2 : (canMint s a q v).1 = false := by
      revert hc
      cases (canMint s a q v).1 <;> simp
    rw [mint_err s a q v now hc2]
    exact ⟨⟨fun _ => hc2, fun _ => ⟨_, rfl⟩⟩, fun _ => rfl⟩

theorem mint_raises_iff_canMint_rejects_witness :
    ((∃ e, (mint initMinter "0xabc" 1 MANGO_TANGO_MINT_PRICE_WEI 0).1 = .error e) ↔
      (canMint initMinter "0xabc" 1 MANGO_TANGO_MINT_PRICE_WEI).1 = false) ∧
    ((∃ e, (mint initMinter "0xabc" 1 MANGO_TANGO_MINT_PRICE_WEI 0).1 = .error e) →
      (mint initMinter "0xabc" 1 MANGO_TANGO_MINT_PRICE_WEI 0).2 = initMinter) :=
  mint_raises_iff_canMint_rejects initMinter "0xabc" 1 MANGO_TANGO_MINT_PRICE_WEI 0

/-- C2 (code bug): on the fresh ledger (phase Allowlist, empty allowlist),
`mint("0xabc", 1, price)` is rejected by the allowlist check of `can_mint`,
but the error-dispatch line of `mint` raises `MangoTangoWalletLimitError`
rather than the dedicated `MangoTangoNotAllowedError`: the claimed
`NotAllowlisted` error kind is never produced. -/
theorem freshMint_notAllowlisted_raises_walletLimit :
    canMint initMinter "0xabc" 1 MANGO_TANGO_MINT_PRICE_WEI =
      (false, some "MangoTango: not on allowlist") ∧
    mint initMinter "0xabc" 1 MANGO_TANGO_MINT_PRICE_WEI 0 =
      (.error (.walletLimit "0xabc" 0 2), initMinter) ∧
    (∀ x, (mint initMinter "0xabc" 1 MANGO_TANGO_MINT_PRICE_WEI 0).1 ≠
      .error (.notAllowed x)) := by
  refine ⟨rfl, rfl, ?_⟩
  intro x hx
  rw [show (mint initMinter "0xabc" 1 MANGO_TANGO_MINT_PRICE_WEI 0).1 =
      .error (.walletLimit "0xabc" 0 2) from rfl] at hx
  exact absurd (Except.error.inj hx) (by simp)

/-- C3 counterexample: the claim "no operation changes the phase away from
SoldOut (including the explicit phase-advance)" is false: applying
`advance_to_public` to a state with phase `SOLD_OUT` yields phase `PUBLIC`. -/
theorem soldOut_escape_counterexample :
    soldOutPhaseState.phase = .SOLD_OUT ∧
    (applyOp soldOutPhaseState .advanceOp).phase = .PUBLIC ∧
    (applyOp soldOutPhaseState .advanceOp).phase ≠ .SOLD_OUT := by
  refine ⟨rfl, rfl, ?_⟩
  intro h
  rw [applyOp_advanceOp, advanceToPublic_phase] at h
  exact MangoTangoPhase.noConfusion h

/-- C3 amended: once the phase is `SOLD_OUT`, every sequence of operations
that does not contain the explicit phase-advance operation leaves the phase
`SOLD_OUT`; `advance_to_public` itself, being unconditional, moves even a
sold-out ledger to `PUBLIC`. -/
theorem soldOut_persists_without_advance (s : MinterState) (ops : List MinterOp)
    (h : s.phase = .SOLD_OUT) (hops : ∀ op ∈ ops, isAdvanceOp op = false) :
    (ops.foldl applyOp s).phase = .SOLD_OUT := by
  induction ops generalizing s with
  | nil => exact h
  | cons op rest ih =>
      rw [List.foldl_cons]
      exact ih (applyOp s op) (applyOp_soldOut_phase s op h (hops op (by simp)))
        (fun o ho => hops o (by simp [ho]))

theorem soldOut_persists_without_advance_witness :
    ([MinterOp.addAllowlistOp ["0xabc"],
      MinterOp.mintOp "0xabc" 1 MANGO_TANGO_MINT_PRICE_WEI 0,
      MinterOp.revealOp 1 500].foldl applyOp soldOutPhaseState).phase = .SOLD_OUT :=
  soldOut_persists_without_advance soldOutPhaseState _ rfl (by
    intro op hop
    simp only [List.mem_cons, List.not_mem_nil, or_false] at hop
    rcases hop with h | h | h <;> subst h <;> rfl)

/-- C4 counterexample: in the reachable state obtained by selling out the
collection and then calling `advance_to_public`, `total_minted` equals
`MAX_SUPPLY` but the phase is not `SOLD_OUT`, refuting the claimed
biconditional. -/
theorem soldOut_iff_maxSupply_counterexample :
    Reachable cexFinal ∧
    cexFinal.totalMinted = MANGO_TANGO_MAX_SUPPLY ∧
    cexFinal.phase ≠ .SOLD_OUT := by
  obtain ⟨h1, h2, h3⟩ := cexFinal_facts
  refine ⟨h1, h2, ?_⟩
  intro h
  rw [h3] at h
  exact MangoTangoPhase.noConfusion h

/-- C4 amended: in every reachable state, phase `SOLD_OUT` implies
`total_minted = MAX_SUPPLY`, and from a reachable `SOLD_OUT` state every
mint call fails and leaves the state unchanged.  (The converse implication
does not hold: `advance_to_public` can move a sold-out ledger back to
`PUBLIC` while `total_minted` stays at `MAX_SUPPLY`.) -/
theorem reachable_soldOut_full_and_mint_fails (s : MinterState) (h : Reachable s) :
    (s.phase = .SOLD_OUT → s.totalMinted = MANGO_TANGO_MAX_SUPPLY) ∧
    (s.phase = .SOLD_OUT → ∀ a q v now, ∃ e, mint s a q v now = (.error e, s)) := by
  refine ⟨(reachable_ledgerInv s h).2.2.2, ?_⟩
  intro hph a q v now
  exact ⟨_, mint_err s a q v now (canMint_soldOut s a q v hph)⟩

theorem reachable_soldOut_full_and_mint_fails_witness :
    ((cexSoldOut.phase = .SOLD_OUT → cexSoldOut.totalMinted = MANGO_TANGO_MAX_SUPPLY) ∧
     (cexSoldOut.phase = .SOLD_OUT →
       ∀ a q v now, ∃ e, mint cexSoldOut a q v now = (.error e, cexSoldOut))) ∧
    cexSoldOut.phase = .SOLD_OUT ∧
    cexSoldOut.totalMinted = MANGO_TANGO_MAX_SUPPLY :=
  ⟨reachable_soldOut_full_and_mint_fails cexSoldOut cexSoldOut_facts.1,
   cexSoldOut_facts.2.2, cexSoldOut_facts.2.1⟩

/-- C5: in every reachable state, `total_minted` equals the number of entries
of the owner-by-id map and `total_minted ≤ MAX_SUPPLY` (so both properties
are preserved by every public operation along any execution). -/
theorem reachable_totalMinted_eq_owners_and_bounded (s : MinterState) (h : Reachable s) :
    s.totalMinted = s.ownerOf.length ∧ s.totalMinted ≤ MANGO_TANGO_MAX_SUPPLY :=
  ⟨(reachable_ledgerInv s h).1, (reachable_ledgerInv s h).2.1⟩

theorem reachable_totalMinted_eq_owners_and_bounded_witness :
    scenarioMinted.totalMinted = scenarioMinted.ownerOf.length ∧
    scenarioMinted.totalMinted ≤ MANGO_TANGO_MAX_SUPPLY :=
  reachable_totalMinted_eq_owners_and_bounded scenarioMinted reachable_scenarioMinted

/-- C6: whenever `can_mint(to, q, value)` allows, `mint(to, q, value)`
returns exactly the `q` consecutive token ids starting at the prior
`next_token_id`, records `to` as owner of each, and increases the total
supply by `q`; in particular, on the fresh ledger with `0xabc` allowlisted,
`mint("0xabc", 1, price)` returns `[1]`, `owner_of(1) = "0xabc"` and
`total_supply = 1`. -/
theorem mint_allocates_sequentially :
    (∀ (s : MinterState) (a : String) (q v now : Nat),
      (canMint s a q v).1 = true →
      (mint s a q v now).1 = .ok (List.range' s.nextTokenId q) ∧
      (mint s a q v now).2.totalMinted = s.totalMinted + q ∧
      (∀ t ∈ List.range' s.nextTokenId q,
        alookup (mint s a q v now).2.ownerOf t = some a)) ∧
    ((mint scenarioAllowlisted "0xabc" 1 MANGO_TANGO_MINT_PRICE_WEI 0).1 = .ok [1] ∧
     ownerOfFn scenarioMinted 1 = .ok "0xabc" ∧
     getTotalSupply scenarioMinted = 1) := by
  constructor
  · intro s a q v now hc
    obtain ⟨hph, hsup, hval, hallow, hwallet⟩ := (canMint_true_iff s a q v).mp hc
    obtain ⟨m1, m2, m3, m4, m5, m6, m7, m8⟩ := mintLoop_spec a now q s hsup
    obtain ⟨f1, f2, f3, f4, f5, f6⟩ := mintSuccessState_fields s a q now
    rw [mint_ok s a q v now hc]
    refine ⟨?_, ?_, ?_⟩
    · show Except.ok (mintLoop a now q s).1 = _
      rw [m1]
    · show (mintSuccessState s a q now).totalMinted = _
      rw [f1, m2]
    · intro t ht
      show alookup (mintSuccessState s a q now).ownerOf t = _
      rw [f3]
      exact m7 t ht
  · exact ⟨rfl, rfl, rfl⟩

theorem mint_allocates_sequentially_witness :
    (mint scenarioAllowlisted "0xabc" 2 (MANGO_TANGO_MINT_PRICE_WEI * 2) 0).1 =
      .ok (List.range' scenarioAllowlisted.nextTokenId 2) ∧
    (mint scenarioAllowlisted "0xabc" 2 (MANGO_TANGO_MINT_PRICE_WEI * 2) 0).2.totalMinted =
      scenarioAllowlisted.totalMinted + 2 ∧
    (∀ t ∈ List.range' scenarioAllowlisted.nextTokenId 2,
      alookup (mint scenarioAllowlisted "0xabc" 2 (MANGO_TANGO_MINT_PRICE_WEI * 2) 0).2.ownerOf t =
        some "0xabc") :=
  mint_allocates_sequentially.1 scenarioAllowlisted "0xabc" 2 (MANGO_TANGO_MINT_PRICE_WEI * 2) 0 rfl

/-- C7: trait generation is a pure deterministic function of the collection
seed and token id: the digest is the SHA-256 hex digest of the seed, token
id and nonce joined by dashes, every pick indexes its table by the first
8 hex characters of a fixed digest slice modulo the table length, a
`Special` trait is appended exactly when `int(digest[14:16], 16) % 5 = 0`,
and repeated calls with the same `revealed` flag (indeed with any flags)
yield identical attribute lists. -/
theorem traitGeneration_deterministic (token_id : Nat) (revealed : Bool) :
    (∀ (seed : String) (t n : Nat),
      hashSeedForToken seed t n = sha256Hex (seed ++ "-" ++ Nat.repr t ++ "-" ++ Nat.repr n)) ∧
    (∀ (h : String) (table : List String),
      pickTraitFromHash h table = table.getD (hexToNat (pySlice h 0 8) % table.length) "") ∧
    (generateMetadataAttributes token_id revealed =
      [("Background", MANGO_TANGO_BACKGROUNDS.getD
          (hexToNat (pySlice (hashSeedForToken MANGO_TANGO_COLLECTION_SEED token_id 0) 0 8) %
            MANGO_TANGO_BACKGROUNDS.length) ""),
       ("Skin", MANGO_TANGO_SKIN_TONES.getD
          (hexToNat (pySlice (hashSeedForToken MANGO_TANGO_COLLECTION_SEED token_id 0) 2 10) %
            MANGO_TANGO_SKIN_TONES.length) ""),
       ("Expression", MANGO_TANGO_EXPRESSIONS.getD
          (hexToNat (pySlice (hashSeedForToken MANGO_TANGO_COLLECTION_SEED token_id 0) 4 12) %
            MANGO_TANGO_EXPRESSIONS.length) ""),
       ("Accessory", MANGO_TANGO_ACCESSORIES.getD
          (hexToNat (pySlice (hashSeedForToken MANGO_TANGO_COLLECTION_SEED token_id 0) 6 14) %
            MANGO_TANGO_ACCESSORIES.length) ""),
       ("Rarity", MANGO_TANGO_RARITY_TIERS.getD
          (hexToNat (pySlice (hashSeedForToken MANGO_TANGO_COLLECTION_SEED token_id 0) 10 18) %
            MANGO_TANGO_RARITY_TIERS.length) ""),
       ("Background Color", MANGO_TANGO_BACKGROUND_HEX.getD
          (hexToNat (pySlice (hashSeedForToken MANGO_TANGO_COLLECTION_SEED token_id 0) 20 28) %
            MANGO_TANGO_BACKGROUND_HEX.length) "")]
      ++ (if hexToNat (pySlice (hashSeedForToken MANGO_TANGO_COLLECTION_SEED token_id 0) 14 16) % 5 = 0
          then [("Special", MANGO_TANGO_SPECIAL_TRAITS.getD
            (hexToNat (pySlice (hashSeedForToken MANGO_TANGO_COLLECTION_SEED token_id 0) 16 24) %
              MANGO_TANGO_SPECIAL_TRAITS.length) "")]
          else [])) ∧
    (∀ r1 r2 : Bool,
      generateMetadataAttributes token_id r1 = generateMetadataAttributes token_id r2) := by
  refine ⟨fun _ _ _ => rfl, fun _ _ => rfl, ?_, fun _ _ => rfl⟩
  unfold generateMetadataAttributes
  dsimp only
  rw [pickTrait_slice _ 0 16 _ (by omega), pickTrait_slice _ 2 18 _ (by omega),
      pickTrait_slice _ 4 20 _ (by omega), pickTrait_slice _ 6 22 _ (by omega),
      pickTrait_slice _ 10 26 _ (by omega), pickHex_slice _ 12 28 _ (by omega),
      pickTrait_slice _ 16 32 _ (by omega)]

/-- C8: `reveal` is idempotent in effect: for a token whose reveal delay has
elapsed, a second `reveal` returns metadata with the same attribute list and
the same image reference as the first, differing at most in the
`revealed_at` timestamp. -/
theorem reveal_idempotent_in_effect (s : MinterState) (tid now1 now2 : Nat)
    (hmem : acontains s.metadataStore tid = true)
    (h1 : s.revealReadyAt tid ≤ now1) (h2 : s.revealReadyAt tid ≤ now2) :
    (reveal s tid now1).1 = .ok (buildTokenMetadata tid true now1) ∧
    (reveal (reveal s tid now1).2 tid now2).1 = .ok (buildTokenMetadata tid true now2) ∧
    (buildTokenMetadata tid true now2).attributes =
      (buildTokenMetadata tid true now1).attributes ∧
    (buildTokenMetadata tid true now2).image_uri =
      (buildTokenMetadata tid true now1).image_uri ∧
    buildTokenMetadata tid true now2 =
      { buildTokenMetadata tid true now1 with revealed_at := some now2 } := by
  have e1 := reveal_ok s tid now1 hmem h1
  refine ⟨by rw [e1], ?_, rfl, rfl, rfl⟩
  rw [e1]
  dsimp only
  rw [reveal_ok
    { s with metadataStore := ainsert s.metadataStore tid (buildTokenMetadata tid true now1)
             eventLog := s.eventLog ++ [.tokenRevealed tid] }
    tid now2 (acontains_ainsert_self _ _ _) h2]

theorem reveal_idempotent_in_effect_witness :
    (reveal scenarioMinted 1 300).1 = .ok (buildTokenMetadata 1 true 300) ∧
    (reveal (reveal scenarioMinted 1 300).2 1 400).1 = .ok (buildTokenMetadata 1 true 400) ∧
    (buildTokenMetadata 1 true 400).attributes = (buildTokenMetadata 1 true 300).attributes ∧
    (buildTokenMetadata 1 true 400).image_uri = (buildTokenMetadata 1 true 300).image_uri ∧
    buildTokenMetadata 1 true 400 =
      { buildTokenMetadata 1 true 300 with revealed_at := some 400 } :=
  reveal_idempotent_in_effect scenarioMinted 1 300 400 rfl (by decide) (by decide)

/-- C9: for every sale price `P` and basis-point value `bps ≤ 10000`, the
royalty function returns exactly `⌊P * bps / 10000⌋` in integer arithmetic:
`royalty * 10000 ≤ P * bps < (royalty + 1) * 10000`. -/
theorem royalty_floor_division (P bps : Nat) (hbps : bps ≤ 10000) :
    computeRoyaltyAmount P bps = P * bps / 10000 ∧
    computeRoyaltyAmount P bps * 10000 ≤ P * bps ∧
    P * bps < (computeRoyaltyAmount P bps + 1) * 10000 := by
  unfold computeRoyaltyAmount MANGO_TANGO_BPS_DENOM
  refine ⟨rfl, Nat.div_mul_le_self _ _, ?_⟩
  have h0 := Nat.div_add_mod (P * bps) 10000
  have h1 := Nat.mod_lt (P * bps) (show 0 < 10000 by norm_num)
  omega

theorem royalty_floor_division_witness :
    computeRoyaltyAmount 1234567 750 = 1234567 * 750 / 10000 ∧
    computeRoyaltyAmount 1234567 750 * 10000 ≤ 1234567 * 750 ∧
    1234567 * 750 < (computeRoyaltyAmount 1234567 750 + 1) * 10000 :=
  royalty_floor_division 1234567 750 (by norm_num)

/-- C10: ownership records are stored un-normalized while balance queries
normalize: every token minted through `mint(to, q, v)` has `owner_of` equal
to the string `to` exactly as passed, while `balance_of` and
`tokens_of_owner` compare owners by trimmed lower-cased equality, so they
agree on any two address strings with the same normalized form. -/
theorem owners_unnormalized_queries_normalized :
    (∀ (s : MinterState) (a : String) (q v now : Nat) (ids : List Nat),
      (mint s a q v now).1 = .ok ids →
      ∀ t ∈ ids, ownerOfFn (mint s a q v now).2 t = .ok a) ∧
    (∀ (s : MinterState) (a b : String), pyNorm a = pyNorm b →
      balanceOf s a = balanceOf s b ∧ tokensOfOwner s a = tokensOfOwner s b) := by
  constructor
  · intro s a q v now ids h t ht
    obtain ⟨hc, hids, hst⟩ := mint_ok_inv s a q v now ids h
    obtain ⟨hph, hsup, hval, hallow, hwallet⟩ := (canMint_true_iff s a q v).mp hc
    obtain ⟨m1, m2, m3, m4, m5, m6, m7, m8⟩ := mintLoop_spec a now q s hsup
    obtain ⟨f1, f2, f3, f4, f5, f6⟩ := mintSuccessState_fields s a q now
    rw [hst]
    unfold ownerOfFn
    rw [f3]
    rw [hids, m1] at ht
    rw [m7 t ht]
  · intro s a b hab
    constructor
    · unfold balanceOf
      rw [hab]
    · unfold tokensOfOwner
      rw [hab]

theorem owners_unnormalized_queries_normalized_witness :
    (∀ t ∈ ([1] : List Nat),
      ownerOfFn (mint scenarioUpperAllowlisted "0xABC" 1 MANGO_TANGO_MINT_PRICE_WEI 0).2 t =
        .ok "0xABC") ∧
    (balanceOf scenarioUpperMinted "0xABC" = balanceOf scenarioUpperMinted " 0xabc " ∧
     tokensOfOwner scenarioUpperMinted "0xABC" = tokensOfOwner scenarioUpperMinted " 0xabc ") :=
  ⟨owners_unnormalized_queries_normalized.1 scenarioUpperAllowlisted "0xABC" 1
      MANGO_TANGO_MINT_PRICE_WEI 0 [1] rfl,
   owners_unnormalized_queries_normalized.2 scenarioUpperMinted "0xABC" " 0xabc " (by decide)⟩
